import Mathlib

/-!
Shallow embedding of the pulumi-profile-selector program
(src/config.rs, src/main.rs, src/ui.rs).

The profile store persists a list of profiles as a JSON array of
objects with string fields `name` and `backend`.  We embed the file
contents at the granularity of a JSON value (`Json`): serde_json
serialization becomes `profilesToJson`, deserialization becomes
`profilesOfJson`.  A store file is `Option Json` (`none` = the file
does not exist).  Filesystem side effects and save calls are made
explicit by returning the new file contents and a count of
`save_pulumi_profiles` invocations.

Shell-command emission (`print_shell_command_with_backend`,
`print_shell_command`) is embedded as pure string functions, with the
value of the `SHELL` environment variable passed explicitly.  The CLI
dispatch of `main` is embedded as `mainRun` over explicit argument,
world (ambient input) and filesystem-state records.
-/

namespace PulumiSel

/-- `struct Profile` of src/config.rs: a profile name plus a backend URL. -/
structure Profile where
  name : String
  backend : String
deriving DecidableEq, Repr

/-- JSON values, the target of serde_json serialization. -/
inductive Json where
  | null : Json
  | bool : Bool → Json
  | num : Int → Json
  | str : String → Json
  | arr : List Json → Json
  | obj : List (String × Json) → Json

/-- serde serialization of one `Profile`: an object with the fields in
declaration order. -/
def profileToJson (p : Profile) : Json :=
  Json.obj [("name", Json.str p.name), ("backend", Json.str p.backend)]

/-- serde serialization of a `Vec<Profile>`: a JSON array. -/
def profilesToJson (ps : List Profile) : Json :=
  Json.arr (ps.map profileToJson)

/-- Look up a field of a JSON object (first occurrence). -/
def jsonField (key : String) : List (String × Json) → Option Json
  | [] => none
  | (k, v) :: rest => if k == key then some v else jsonField key rest

/-- serde deserialization of one `Profile`: the element must be an object
with string fields `name` and `backend`. -/
def profileOfJson : Json → Option Profile
  | Json.obj fields =>
    match jsonField "name" fields, jsonField "backend" fields with
    | some (Json.str n), some (Json.str b) => some ⟨n, b⟩
    | _, _ => none
  | _ => none

/-- Decode every element of a JSON array; any failure fails the whole parse. -/
def decodeProfiles : List Json → Option (List Profile)
  | [] => some []
  | x :: xs =>
    match profileOfJson x, decodeProfiles xs with
    | some p, some ps => some (p :: ps)
    | _, _ => none

/-- serde deserialization of `Vec<Profile>`: the document must be a JSON
array of profile-shaped objects. -/
def profilesOfJson : Json → Option (List Profile)
  | Json.arr xs => decodeProfiles xs
  | _ => none

/-- The error taxonomy of the spec (the source uses anyhow errors with
corresponding messages). -/
inductive StoreError where
  | ioError : StoreError
  | formatError : StoreError
  | duplicateError : String → StoreError
  | notFoundError : String → StoreError
  | noHomeDirectoryError : StoreError
deriving DecidableEq, Repr

/-- Contents of the profiles file: `none` means the file does not exist. -/
abbrev ProfilesFile := Option Json

/-- Result of a store operation: the outcome, the resulting file contents,
and how many times `save_pulumi_profiles` ran. -/
structure StoreStep (α : Type) where
  out : Except StoreError α
  fs : ProfilesFile
  saves : Nat

/-- `save_pulumi_profiles` of src/config.rs: serializes the full list and
overwrites the file (creating parent directories as needed). -/
def save_pulumi_profiles (profiles : List Profile) : ProfilesFile :=
  some (profilesToJson profiles)

/-- `read_pulumi_profiles` of src/config.rs: if the file does not exist,
save an empty list and return it; otherwise parse the contents, failing
with a format error if they are not a valid profile array. -/
def read_pulumi_profiles (fs : ProfilesFile) : StoreStep (List Profile) :=
  match fs with
  | none => ⟨Except.ok [], save_pulumi_profiles [], 1⟩
  | some j =>
    match profilesOfJson j with
    | some profiles => ⟨Except.ok profiles, some j, 0⟩
    | none => ⟨Except.error StoreError.formatError, some j, 0⟩

/-- `add_profile` of src/config.rs: read, reject an existing name, else
append at the end and save. -/
def add_profile (name backend : String) (fs : ProfilesFile) : StoreStep Unit :=
  let r := read_pulumi_profiles fs
  match r.out with
  | Except.error e => ⟨Except.error e, r.fs, r.saves⟩
  | Except.ok profiles =>
    if profiles.any (fun p => p.name == name) then
      ⟨Except.error (StoreError.duplicateError name), r.fs, r.saves⟩
    else
      ⟨Except.ok (), save_pulumi_profiles (profiles ++ [Profile.mk name backend]),
        r.saves + 1⟩

/-- The in-place update of `edit_profile`: `iter_mut().find` mutates the
backend of the first entry whose name matches. -/
def editFirst (name newBackend : String) : List Profile → List Profile
  | [] => []
  | p :: ps =>
    if p.name == name then { p with backend := newBackend } :: ps
    else p :: editFirst name newBackend ps

/-- `edit_profile` of src/config.rs: read, update the first entry with the
given name and save, or fail with a not-found error. -/
def edit_profile (name newBackend : String) (fs : ProfilesFile) : StoreStep Unit :=
  let r := read_pulumi_profiles fs
  match r.out with
  | Except.error e => ⟨Except.error e, r.fs, r.saves⟩
  | Except.ok profiles =>
    if profiles.any (fun p => p.name == name) then
      ⟨Except.ok (), save_pulumi_profiles (editFirst name newBackend profiles),
        r.saves + 1⟩
    else
      ⟨Except.error (StoreError.notFoundError name), r.fs, r.saves⟩

/-- `delete_profile` of src/config.rs: read, retain the entries whose name
differs, fail with a not-found error when nothing was removed, else save. -/
def delete_profile (name : String) (fs : ProfilesFile) : StoreStep Unit :=
  let r := read_pulumi_profiles fs
  match r.out with
  | Except.error e => ⟨Except.error e, r.fs, r.saves⟩
  | Except.ok profiles =>
    let remaining := profiles.filter (fun p => p.name != name)
    if remaining.length == profiles.length then
      ⟨Except.error (StoreError.notFoundError name), r.fs, r.saves⟩
    else
      ⟨Except.ok (), save_pulumi_profiles remaining, r.saves + 1⟩

/-- Whether `pat` is a leading segment of `hay`. -/
def leadsWith : List Char → List Char → Bool
  | [], _ => true
  | _ :: _, [] => false
  | p :: ps, h :: hs => p == h && leadsWith ps hs

/-- Substring search over character lists. -/
def containsAux (pat : List Char) : List Char → Bool
  | [] => leadsWith pat []
  | h :: t => leadsWith pat (h :: t) || containsAux pat t

/-- Rust `str::contains` for substring patterns: does `hay` contain `pat`? -/
def strContains (hay pat : String) : Bool :=
  containsAux pat.toList hay.toList

/-- `std::env::var("SHELL").unwrap_or_default()` of src/main.rs: an absent
variable is read as the empty string. -/
def shellFromEnv (v : Option String) : String :=
  v.getD ""

/-- `print_shell_command_with_backend` of src/main.rs, with the value of
the `SHELL` variable passed explicitly.  Returns the exact string printed
to stdout (`print!`, so no trailing newline). -/
def print_shell_command_with_backend (shell : String) (backend_url : Option String) :
    String :=
  match backend_url with
  | some url =>
    if strContains shell "nu" || strContains shell "nushell" then
      "$env.PULUMI_BACKEND_URL = \"" ++ url ++ "\""
    else if strContains shell "fish" then
      "set -gx PULUMI_BACKEND_URL \"" ++ url ++ "\""
    else
      "export PULUMI_BACKEND_URL=\"" ++ url ++ "\""
  | none =>
    if strContains shell "nu" || strContains shell "nushell" then
      "hide-env PULUMI_BACKEND_URL"
    else if strContains shell "fish" then
      "set -e PULUMI_BACKEND_URL"
    else
      "unset PULUMI_BACKEND_URL"

/-- `print_shell_command` of src/main.rs: given a profile name, it reads
the stored profiles (ignoring a read failure) and emits the backend URL
when the name is registered, falling back to the name itself otherwise.
Returns the printed string and the profiles file after the internal read
(which creates the file when absent). -/
def print_shell_command (shell : String) (profile_name : Option String)
    (fs : ProfilesFile) : String × ProfilesFile :=
  match profile_name with
  | some name =>
    let r := read_pulumi_profiles fs
    match r.out with
    | Except.ok profiles =>
      match profiles.find? (fun p => p.name == name) with
      | some p => (print_shell_command_with_backend shell (some p.backend), r.fs)
      | none => (print_shell_command_with_backend shell (some name), r.fs)
    | Except.error _ => (print_shell_command_with_backend shell (some name), r.fs)
  | none => (print_shell_command_with_backend shell none, fs)

/-- The command-line flags of src/main.rs (clap matches). -/
structure CliArgs where
  activate : Option String
  deactivate : Bool
  newName : Option String
  current : Bool
  add : Bool
  edit : Option String
  delete : Option String
  list : Bool

/-- Filesystem state touched by the program: the profiles file and the
current-profile marker file (its contents, `none` = absent). -/
structure St where
  profilesFile : ProfilesFile
  markerFile : Option String

/-- Ambient inputs of one run: whether the home directory resolves, the
`SHELL` variable, and the outcomes of the interactive collaborators
(`prompt_for_profile_details`, `prompt_for_backend_url`,
`ProfileSelector::run` of src/ui.rs). -/
structure World where
  hasHome : Bool
  shellVar : Option String
  profileDetails : Except StoreError (String × String)
  backendInput : Except StoreError String
  selection : Except StoreError (Option String)

/-- A completed run of `main`: process exit code, resulting filesystem
state, and the lines printed to stdout (shell commands carry no trailing
newline; stderr output is not recorded). -/
structure MainOk where
  exitCode : Nat
  st : St
  stdout : List String

/-- The tail of `main` once a registered profile (name, backend) has been
selected: in shell mode print the export command for the backend URL, in
file mode write the name to the marker file. -/
def finishSelection (a : CliArgs) (shell : String) (st : St)
    (name backend : String) : Except StoreError MainOk :=
  if a.current then
    Except.ok ⟨0, st, [print_shell_command_with_backend shell (some backend)]⟩
  else
    Except.ok ⟨0, ⟨st.profilesFile, some name⟩,
      ["Pulumi profile activated: " ++ name ++ " (" ++ backend ++ ")"]⟩

/-- `main` of src/main.rs: dispatch over the flags in source order.
`Except.error e` is an anyhow error reported at the CLI boundary with a
nonzero exit status; `Except.ok` carries the explicit exit code. -/
def mainRun (a : CliArgs) (w : World) (st : St) : Except StoreError MainOk :=
  if !w.hasHome then Except.error StoreError.noHomeDirectoryError else
  let shell := shellFromEnv w.shellVar
  if a.add then
    match w.profileDetails with
    | Except.error e => Except.error e
    | Except.ok (name, backend) =>
      let r := add_profile name backend st.profilesFile
      match r.out with
      | Except.error e => Except.error e
      | Except.ok _ =>
        Except.ok ⟨0, ⟨r.fs, st.markerFile⟩, ["Profile added successfully: " ++ name]⟩
  else match a.edit with
  | some name =>
    match w.backendInput with
    | Except.error e => Except.error e
    | Except.ok newBackend =>
      let r := edit_profile name newBackend st.profilesFile
      match r.out with
      | Except.error e => Except.error e
      | Except.ok _ =>
        Except.ok ⟨0, ⟨r.fs, st.markerFile⟩, ["Profile updated successfully: " ++ name]⟩
  | none => match a.delete with
  | some name =>
    let r := delete_profile name st.profilesFile
    match r.out with
    | Except.error e => Except.error e
    | Except.ok _ =>
      Except.ok ⟨0, ⟨r.fs, st.markerFile⟩, ["Profile deleted successfully: " ++ name]⟩
  | none =>
  if a.list then
    let r := read_pulumi_profiles st.profilesFile
    match r.out with
    | Except.error e => Except.error e
    | Except.ok profiles =>
      if profiles.isEmpty then
        Except.ok ⟨0, ⟨r.fs, st.markerFile⟩, ["No profiles found."]⟩
      else
        Except.ok ⟨0, ⟨r.fs, st.markerFile⟩,
          "Available profiles:" ::
            profiles.map (fun p => "  " ++ p.name ++ " -> " ++ p.backend)⟩
  else if a.deactivate then
    if a.current then
      let pr := print_shell_command shell none st.profilesFile
      Except.ok ⟨0, ⟨pr.2, st.markerFile⟩, [pr.1]⟩
    else if st.markerFile.isSome then
      Except.ok ⟨0, ⟨st.profilesFile, none⟩, ["Pulumi profile deactivated"]⟩
    else
      Except.ok ⟨0, st, ["No active Pulumi profile to deactivate"]⟩
  else match a.newName with
  | some name =>
    if a.current then
      let pr := print_shell_command shell (some name) st.profilesFile
      Except.ok ⟨0, ⟨pr.2, st.markerFile⟩, [pr.1]⟩
    else
      Except.ok ⟨0, ⟨st.profilesFile, some name⟩,
        ["Pulumi profile activated: " ++ name]⟩
  | none =>
  let r := read_pulumi_profiles st.profilesFile
  match r.out with
  | Except.error e => Except.error e
  | Except.ok profiles =>
    if profiles.isEmpty then
      Except.ok ⟨1, ⟨r.fs, st.markerFile⟩, []⟩
    else
      match a.activate with
      | some pname =>
        match profiles.find? (fun p => p.name == pname) with
        | some p => finishSelection a shell ⟨r.fs, st.markerFile⟩ p.name p.backend
        | none => Except.ok ⟨1, ⟨r.fs, st.markerFile⟩, []⟩
      | none =>
        match w.selection with
        | Except.error e => Except.error e
        | Except.ok none =>
          Except.ok ⟨1, ⟨r.fs, st.markerFile⟩, ["No profile selected"]⟩
        | Except.ok (some sname) =>
          match profiles.find? (fun p => p.name == sname) with
          | some p => finishSelection a shell ⟨r.fs, st.markerFile⟩ p.name p.backend
          | none => Except.ok ⟨1, ⟨r.fs, st.markerFile⟩, ["No profile selected"]⟩

/-- Modelled from the spec: the shell dispatch policy of section 4.2
together with the per-shell command grammar table of section 6 (substring
match on the shell identity, Nushell before fish before the POSIX
default). -/
def spec_shell_emission (shell : String) (backend_url : Option String) : String :=
  if strContains shell "nu" || strContains shell "nushell" then
    match backend_url with
    | some url => "$env.PULUMI_BACKEND_URL = \"" ++ url ++ "\""
    | none => "hide-env PULUMI_BACKEND_URL"
  else if strContains shell "fish" then
    match backend_url with
    | some url => "set -gx PULUMI_BACKEND_URL \"" ++ url ++ "\""
    | none => "set -e PULUMI_BACKEND_URL"
  else
    match backend_url with
    | some url => "export PULUMI_BACKEND_URL=\"" ++ url ++ "\""
    | none => "unset PULUMI_BACKEND_URL"

theorem profileOfJson_profileToJson (p : Profile) :
    profileOfJson (profileToJson p) = some p := rfl

theorem decodeProfiles_map (L : List Profile) :
    decodeProfiles (L.map profileToJson) = some L := by
  induction L with
  | nil => rfl
  | cons p ps ih => simp [decodeProfiles, profileOfJson_profileToJson, ih]

theorem profilesOfJson_profilesToJson (L : List Profile) :
    profilesOfJson (profilesToJson L) = some L := by
  simp [profilesOfJson, profilesToJson, decodeProfiles_map]

theorem read_save (L : List Profile) :
    read_pulumi_profiles (save_pulumi_profiles L) =
      ⟨Except.ok L, save_pulumi_profiles L, 0⟩ := by
  simp [read_pulumi_profiles, save_pulumi_profiles, profilesOfJson_profilesToJson]

theorem read_of_parse (j : Json) (ps : List Profile)
    (hj : profilesOfJson j = some ps) :
    read_pulumi_profiles (some j) = ⟨Except.ok ps, some j, 0⟩ := by
  simp [read_pulumi_profiles, hj]

/-- C1: saving any profile list and then reading it back yields the same
list, with the same name/backend pairs in the same order. -/
theorem load_save_roundtrip (L : List Profile) :
    (read_pulumi_profiles (save_pulumi_profiles L)).out = Except.ok L := by
  simp [read_save]

/-- C5: reading an absent profiles file returns the empty list and
initializes the file with an empty JSON array. -/
theorem read_absent_initializes :
    read_pulumi_profiles none = ⟨Except.ok [], some (Json.arr []), 1⟩ := rfl

/-- C7: shell command emission agrees everywhere with the spec dispatch
policy and the section-6 grammar, and matches the two concrete scenarios
for `/bin/zsh` activation and fish deactivation. -/
theorem shell_emission_spec :
    (∀ shell b, print_shell_command_with_backend shell b = spec_shell_emission shell b) ∧
    print_shell_command_with_backend "/bin/zsh" (some "s3://x") =
      "export PULUMI_BACKEND_URL=\"s3://x\"" ∧
    print_shell_command_with_backend "/usr/bin/fish" none = "set -e PULUMI_BACKEND_URL" := by
  refine ⟨fun shell b => ?_, rfl, rfl⟩
  cases b <;> simp only [print_shell_command_with_backend, spec_shell_emission]

/-- C10: with the `SHELL` variable absent, the shell identity defaults to
the empty string and emission falls through to the POSIX grammar. -/
theorem shell_env_absent_defaults_posix (url : String) :
    shellFromEnv none = "" ∧
    print_shell_command_with_backend (shellFromEnv none) (some url) =
      "export PULUMI_BACKEND_URL=\"" ++ url ++ "\"" ∧
    print_shell_command_with_backend (shellFromEnv none) none =
      "unset PULUMI_BACKEND_URL" :=
  ⟨rfl, rfl, rfl⟩

/-- C8 counterexample: giving the new-profile shell path a name that is
registered in the store makes it emit the stored backend URL, not the name
itself. -/
theorem activateNew_registered_exports_backend :
    (print_shell_command "/bin/zsh" (some "x")
        (save_pulumi_profiles [⟨"x", "s3://y"⟩])).1 =
      "export PULUMI_BACKEND_URL=\"s3://y\"" ∧
    (print_shell_command "/bin/zsh" (some "x")
        (save_pulumi_profiles [⟨"x", "s3://y"⟩])).1 ≠
      "export PULUMI_BACKEND_URL=\"x\"" :=
  ⟨rfl, by decide⟩

/-- C8 (amended): when the given name is not registered in the stored list
(in particular whenever reading the list fails), the new-profile shell path
emits the export command with the name itself as the value. -/
theorem activateNew_shell_exports_name (shell name : String) (fs : ProfilesFile)
    (h : ∀ ps, (read_pulumi_profiles fs).out = Except.ok ps →
      ps.find? (fun p => p.name == name) = none) :
    (print_shell_command shell (some name) fs).1 =
      print_shell_command_with_backend shell (some name) := by
  rcases hr : (read_pulumi_profiles fs).out with e | ps
  · simp [print_shell_command, hr]
  · simp [print_shell_command, hr, h ps hr]

/-- Witness for C8 (amended) at a concrete absent store. -/
theorem activateNew_shell_exports_name_witness :
    (print_shell_command "/bin/zsh" (some "dev") none).1 =
      print_shell_command_with_backend "/bin/zsh" (some "dev") :=
  activateNew_shell_exports_name "/bin/zsh" "dev" none
    (fun ps hps => by
      simp only [read_pulumi_profiles] at hps
      cases hps
      rfl)

theorem not_mem_of_any_eq_false (ps : List Profile) (name backend : String)
    (h : ps.any (fun p => p.name == name) = false) :
    (⟨name, backend⟩ : Profile) ∉ ps := by
  intro hmem
  have h2 := (List.any_eq_false.mp h) _ hmem
  simp at h2

/-- C2: on a stored list, `add` with a fresh name appends exactly one
profile at the end with exactly one save, and a subsequent load contains
the new profile exactly once; `add` with an existing name fails with the
duplicate error, leaving the file unchanged with no save. -/
theorem add_profile_spec (j : Json) (ps : List Profile) (name backend : String)
    (hj : profilesOfJson j = some ps) :
    (ps.any (fun p => p.name == name) = true →
      add_profile name backend (some j) =
        ⟨Except.error (StoreError.duplicateError name), some j, 0⟩) ∧
    (ps.any (fun p => p.name == name) = false →
      add_profile name backend (some j) =
        ⟨Except.ok (), save_pulumi_profiles (ps ++ [⟨name, backend⟩]), 1⟩ ∧
      (read_pulumi_profiles (add_profile name backend (some j)).fs).out =
        Except.ok (ps ++ [⟨name, backend⟩]) ∧
      List.count (Profile.mk name backend) (ps ++ [⟨name, backend⟩]) = 1) := by
  constructor
  · intro hdup
    simp [add_profile, read_of_parse j ps hj, hdup]
  · intro hfresh
    have hstep : add_profile name backend (some j) =
        ⟨Except.ok (), save_pulumi_profiles (ps ++ [⟨name, backend⟩]), 1⟩ := by
      simp [add_profile, read_of_parse j ps hj, hfresh]
    refine ⟨hstep, ?_, ?_⟩
    · rw [hstep]
      simp [read_save]
    · have hnm := not_mem_of_any_eq_false ps name backend hfresh
      simp [List.count_append, List.count_eq_zero.mpr hnm]

/-- The first-match update of `edit_profile` decomposes the list: there is
a unique split `l1 ++ p :: l2` with no match in `l1` and `p` matching, and
the update replaces only the backend of `p`, leaving `l1`, `l2`, the name
of `p` and the order untouched. -/
theorem editFirst_decomposition (name nb : String) (ps : List Profile)
    (h : ps.any (fun p => p.name == name) = true) :
    ∃ l1 p l2, ps = l1 ++ p :: l2 ∧ (∀ q ∈ l1, q.name ≠ name) ∧ p.name = name ∧
      editFirst name nb ps = l1 ++ { p with backend := nb } :: l2 := by
  induction ps with
  | nil => simp at h
  | cons p t ih =>
    by_cases hp : (p.name == name) = true
    · exact ⟨[], p, t, by simp, by simp, by simpa using hp, by simp [editFirst, hp]⟩
    · have ht : t.any (fun q => q.name == name) = true := by
        rcases List.any_eq_true.mp h with ⟨q, hq, hqn⟩
        rcases List.mem_cons.mp hq with hq2 | hq2
        · exact absurd (hq2 ▸ hqn) hp
        · exact List.any_eq_true.mpr ⟨q, hq2, hqn⟩
      obtain ⟨l1, q, l2, hsplit, hl1, hq, heq⟩ := ih ht
      refine ⟨p :: l1, q, l2, by simp [hsplit], ?_, hq, ?_⟩
      · intro x hx
        rcases List.mem_cons.mp hx with hx2 | hx2
        · subst hx2; simpa using hp
        · exact hl1 x hx2
      · simp [editFirst, hp, heq]

/-- C3: on a stored list containing the name, `edit` rewrites the store
with only the backend of the (first) matching entry replaced — its name,
all other entries and the order are unchanged — in exactly one save; with
an absent name it fails with the not-found error and the file contents are
unchanged with no save. -/
theorem edit_profile_spec (j : Json) (ps : List Profile) (name nb : String)
    (hj : profilesOfJson j = some ps) :
    (ps.any (fun p => p.name == name) = false →
      edit_profile name nb (some j) =
        ⟨Except.error (StoreError.notFoundError name), some j, 0⟩) ∧
    (ps.any (fun p => p.name == name) = true →
      edit_profile name nb (some j) =
        ⟨Except.ok (), save_pulumi_profiles (editFirst name nb ps), 1⟩ ∧
      ∃ l1 p l2, ps = l1 ++ p :: l2 ∧ (∀ q ∈ l1, q.name ≠ name) ∧ p.name = name ∧
        editFirst name nb ps = l1 ++ { p with backend := nb } :: l2) := by
  constructor
  · intro habs
    simp [edit_profile, read_of_parse j ps hj, habs]
  · intro hhit
    refine ⟨?_, editFirst_decomposition name nb ps hhit⟩
    simp [edit_profile, read_of_parse j ps hj, hhit]

theorem filter_ne_eq_self (ps : List Profile) (name : String)
    (h : ps.any (fun p => p.name == name) = false) :
    ps.filter (fun p => p.name != name) = ps := by
  refine List.filter_eq_self.mpr (fun p hp => ?_)
  have h2 := (List.any_eq_false.mp h) p hp
  simpa using h2

theorem filter_ne_length (ps : List Profile) (name : String)
    (hu : (ps.map Profile.name).Nodup)
    (h : ps.any (fun p => p.name == name) = true) :
    (ps.filter (fun p => p.name != name)).length + 1 = ps.length := by
  induction ps with
  | nil => simp at h
  | cons p t ih =>
    rw [List.map_cons, List.nodup_cons] at hu
    obtain ⟨hnot, hut⟩ := hu
    by_cases hp : (p.name == name) = true
    · have hname : p.name = name := by simpa using hp
      have htall : t.any (fun q => q.name == name) = false := by
        refine List.any_eq_false.mpr (fun q hq hqn => hnot ?_)
        have hq2 : q.name = name := by simpa using hqn
        rw [hname, ← hq2]
        exact List.mem_map_of_mem Profile.name hq
      have hfil := filter_ne_eq_self t name htall
      simp [List.filter_cons, hp, hfil, hname]
    · have hpne : ¬p.name = name := by simpa using hp
      have ht : t.any (fun q => q.name == name) = true := by
        rcases List.any_eq_true.mp h with ⟨q, hq, hqn⟩
        rcases List.mem_cons.mp hq with hq2 | hq2
        · exact absurd (hq2 ▸ hqn) hp
        · exact List.any_eq_true.mpr ⟨q, hq2, hqn⟩
      have hih := ih hut ht
      simp [List.filter_cons, hpne]
      omega

/-- C4: on a stored list with unique names that contains the name, `delete`
removes exactly one entry (the remaining entries a sublist of the original,
hence in unchanged relative order) in exactly one save; with an absent name
it fails with the not-found error and the file is unchanged with no save. -/
theorem delete_profile_spec (j : Json) (ps : List Profile) (name : String)
    (hj : profilesOfJson j = some ps)
    (hu : (ps.map Profile.name).Nodup) :
    (ps.any (fun p => p.name == name) = false →
      delete_profile name (some j) =
        ⟨Except.error (StoreError.notFoundError name), some j, 0⟩) ∧
    (ps.any (fun p => p.name == name) = true →
      delete_profile name (some j) =
        ⟨Except.ok (), save_pulumi_profiles (ps.filter (fun p => p.name != name)), 1⟩ ∧
      (ps.filter (fun p => p.name != name)).length + 1 = ps.length ∧
      (ps.filter (fun p => p.name != name)).Sublist ps) := by
  constructor
  · intro habs
    simp [delete_profile, read_of_parse j ps hj, filter_ne_eq_self ps name habs]
  · intro hhit
    have hlen := filter_ne_length ps name hu hhit
    refine ⟨?_, hlen, List.filter_sublist ps⟩
    have hne : ((ps.filter (fun p => p.name != name)).length == ps.length) = false := by
      simp only [beq_eq_false_iff_ne, ne_eq]
      omega
    simp [delete_profile, read_of_parse j ps hj, hne]

theorem editFirst_map_name (name nb : String) (ps : List Profile) :
    (editFirst name nb ps).map Profile.name = ps.map Profile.name := by
  induction ps with
  | nil => rfl
  | cons p t ih =>
    by_cases hp : (p.name == name) = true
    · simp [editFirst, hp]
    · simp [editFirst, hp, ih]

/-- C6: every mutating store operation preserves the uniqueness invariant:
whatever list a subsequent read returns after `add`, `edit` or `delete`
(whether or not the operation saved), no two of its profiles share a name. -/
theorem mutations_preserve_uniqueness (j : Json) (ps : List Profile)
    (hj : profilesOfJson j = some ps) (hu : (ps.map Profile.name).Nodup) :
    (∀ name backend qs,
      (read_pulumi_profiles (add_profile name backend (some j)).fs).out = Except.ok qs →
      (qs.map Profile.name).Nodup) ∧
    (∀ name nb qs,
      (read_pulumi_profiles (edit_profile name nb (some j)).fs).out = Except.ok qs →
      (qs.map Profile.name).Nodup) ∧
    (∀ name qs,
      (read_pulumi_profiles (delete_profile name (some j)).fs).out = Except.ok qs →
      (qs.map Profile.name).Nodup) := by
  have hread := read_of_parse j ps hj
  refine ⟨?_, ?_, ?_⟩
  · intro name backend qs hq
    by_cases hdup : (ps.any (fun p => p.name == name)) = true
    · rw [(add_profile_spec j ps name backend hj).1 hdup] at hq
      simp only at hq
      rw [hread] at hq
      cases hq
      exact hu
    · have hfresh : (ps.any (fun p => p.name == name)) = false :=
        Bool.eq_false_iff.mpr hdup
      rw [((add_profile_spec j ps name backend hj).2 hfresh).1] at hq
      simp only [read_save] at hq
      cases hq
      rw [List.map_append, List.map_singleton]
      rw [List.nodup_append]
      refine ⟨hu, List.nodup_singleton _, ?_⟩
      intro x hx hmem
      rcases List.mem_singleton.mp hmem with rfl
      rcases List.mem_map.mp hx with ⟨q, hq2, hq3⟩
      have := (List.any_eq_false.mp hfresh) q hq2
      exact this (by simp [hq3])
  · intro name nb qs hq
    by_cases hhit : (ps.any (fun p => p.name == name)) = true
    · rw [((edit_profile_spec j ps name nb hj).2 hhit).1] at hq
      simp only [read_save] at hq
      cases hq
      rw [editFirst_map_name]
      exact hu
    · have habs : (ps.any (fun p => p.name == name)) = false :=
        Bool.eq_false_iff.mpr hhit
      rw [(edit_profile_spec j ps name nb hj).1 habs] at hq
      simp only at hq
      rw [hread] at hq
      cases hq
      exact hu
  · intro name qs hq
    by_cases hhit : (ps.any (fun p => p.name == name)) = true
    · rw [((delete_profile_spec j ps name hj hu).2 hhit).1] at hq
      simp only [read_save] at hq
      cases hq
      exact hu.sublist ((List.filter_sublist ps).map Profile.name)
    · have habs : (ps.any (fun p => p.name == name)) = false :=
        Bool.eq_false_iff.mpr hhit
      rw [(delete_profile_spec j ps name hj hu).1 habs] at hq
      simp only at hq
      rw [hread] at hq
      cases hq
      exact hu

/-- C9 counterexample: with a corrupt profiles file, running with the new
flag in shell mode succeeds with exit code 0 and exports the given name,
even though reading the profile store failed with a format error, so a
store error was silently swallowed rather than propagated. -/
theorem newName_shell_swallows_read_error :
    (read_pulumi_profiles (some Json.null)).out = Except.error StoreError.formatError ∧
    mainRun ⟨none, false, some "x", true, false, none, none, false⟩
      ⟨true, some "/bin/bash", Except.ok ("", ""), Except.ok "", Except.ok none⟩
      ⟨some Json.null, none⟩ =
      Except.ok ⟨0, ⟨some Json.null, none⟩, ["export PULUMI_BACKEND_URL=\"x\""]⟩ :=
  ⟨rfl, rfl⟩

/-- C9 (amended): store and controller errors propagate to the CLI
boundary as reported errors on every dispatch path, with exactly three
silently absorbed cases: a canceled interactive selection, deactivating in
file mode when the marker file is already absent, and a failed profile
read inside shell-mode emission for the new-name flag, which falls back to
exporting the name and succeeds. -/
theorem main_error_policy :
    (∀ a w st, w.hasHome = false →
      mainRun a w st = Except.error StoreError.noHomeDirectoryError) ∧
    (∀ a w st e, w.hasHome = true → a.add = true →
      w.profileDetails = Except.error e → mainRun a w st = Except.error e) ∧
    (∀ a w st e n b, w.hasHome = true → a.add = true →
      w.profileDetails = Except.ok (n, b) →
      (add_profile n b st.profilesFile).out = Except.error e →
      mainRun a w st = Except.error e) ∧
    (∀ a w st e n, w.hasHome = true → a.add = false → a.edit = some n →
      w.backendInput = Except.error e → mainRun a w st = Except.error e) ∧
    (∀ a w st e n b2, w.hasHome = true → a.add = false → a.edit = some n →
      w.backendInput = Except.ok b2 →
      (edit_profile n b2 st.profilesFile).out = Except.error e →
      mainRun a w st = Except.error e) ∧
    (∀ a w st e n, w.hasHome = true → a.add = false → a.edit = none →
      a.delete = some n →
      (delete_profile n st.profilesFile).out = Except.error e →
      mainRun a w st = Except.error e) ∧
    (∀ a w st e, w.hasHome = true → a.add = false → a.edit = none →
      a.delete = none → a.list = true →
      (read_pulumi_profiles st.profilesFile).out = Except.error e →
      mainRun a w st = Except.error e) ∧
    (∀ a w st e, w.hasHome = true → a.add = false → a.edit = none →
      a.delete = none → a.list = false → a.deactivate = false → a.newName = none →
      (read_pulumi_profiles st.profilesFile).out = Except.error e →
      mainRun a w st = Except.error e) ∧
    (∀ a w st e ps, w.hasHome = true → a.add = false → a.edit = none →
      a.delete = none → a.list = false → a.deactivate = false → a.newName = none →
      a.activate = none →
      (read_pulumi_profiles st.profilesFile).out = Except.ok ps → ps.isEmpty = false →
      w.selection = Except.error e → mainRun a w st = Except.error e) ∧
    (∀ a w st, w.hasHome = true → a.add = false → a.edit = none → a.delete = none →
      a.list = false → a.deactivate = true → a.current = false → st.markerFile = none →
      mainRun a w st = Except.ok ⟨0, st, ["No active Pulumi profile to deactivate"]⟩) ∧
    (∀ a w st ps, w.hasHome = true → a.add = false → a.edit = none → a.delete = none →
      a.list = false → a.deactivate = false → a.newName = none → a.activate = none →
      (read_pulumi_profiles st.profilesFile).out = Except.ok ps → ps.isEmpty = false →
      w.selection = Except.ok none →
      mainRun a w st =
        Except.ok ⟨1, ⟨(read_pulumi_profiles st.profilesFile).fs, st.markerFile⟩,
          ["No profile selected"]⟩) ∧
    (∀ a w st n e, w.hasHome = true → a.add = false → a.edit = none → a.delete = none →
      a.list = false → a.deactivate = false → a.newName = some n → a.current = true →
      (read_pulumi_profiles st.profilesFile).out = Except.error e →
      mainRun a w st =
        Except.ok ⟨0, ⟨(read_pulumi_profiles st.profilesFile).fs, st.markerFile⟩,
          [print_shell_command_with_backend (shellFromEnv w.shellVar) (some n)]⟩) := by
  refine ⟨?_, ?_, ?_, ?_, ?_, ?_, ?_, ?_, ?_, ?_, ?_, ?_⟩
  · intro a w st hh
    simp [mainRun, hh]
  · intro a w st e hh hadd hdet
    simp [mainRun, hh, hadd, hdet]
  · intro a w st e n b hh hadd hdet hop
    simp [mainRun, hh, hadd, hdet, hop]
  · intro a w st e n hh hadd hedit hinput
    simp [mainRun, hh, hadd, hedit, hinput]
  · intro a w st e n b2 hh hadd hedit hinput hop
    simp [mainRun, hh, hadd, hedit, hinput, hop]
  · intro a w st e n hh hadd hedit hdel hop
    simp [mainRun, hh, hadd, hedit, hdel, hop]
  · intro a w st e hh hadd hedit hdel hlist hread
    simp [mainRun, hh, hadd, hedit, hdel, hlist, hread]
  · intro a w st e hh hadd hedit hdel hlist hdeact hnew hread
    simp [mainRun, hh, hadd, hedit, hdel, hlist, hdeact, hnew, hread]
  · intro a w st e ps hh hadd hedit hdel hlist hdeact hnew hact hread hne hsel
    simp [mainRun, hh, hadd, hedit, hdel, hlist, hdeact, hnew, hact, hread, hne, hsel]
  · intro a w st hh hadd hedit hdel hlist hdeact hcur hmarker
    simp [mainRun, hh, hadd, hedit, hdel, hlist, hdeact, hcur, hmarker]
  · intro a w st ps hh hadd hedit hdel hlist hdeact hnew hact hread hne hsel
    simp [mainRun, hh, hadd, hedit, hdel, hlist, hdeact, hnew, hact, hread, hne, hsel]
  · intro a w st n e hh hadd hedit hdel hlist hdeact hnew hcur hread
    simp [mainRun, print_shell_command, hh, hadd, hedit, hdel, hlist, hdeact, hnew,
      hcur, hread]

/-- Witness for C2: adding a fresh profile to a concrete one-entry store. -/
theorem add_profile_spec_witness :
    add_profile "prod" "s3://bucket"
        (some (profilesToJson [⟨"dev", "file://./state"⟩])) =
      ⟨Except.ok (),
        save_pulumi_profiles [⟨"dev", "file://./state"⟩, ⟨"prod", "s3://bucket"⟩], 1⟩ :=
  ((add_profile_spec (profilesToJson [⟨"dev", "file://./state"⟩])
      [⟨"dev", "file://./state"⟩] "prod" "s3://bucket" rfl).2 rfl).1

/-- Witness for C3: editing the backend of a concrete stored profile. -/
theorem edit_profile_spec_witness :
    edit_profile "dev" "s3://new"
        (some (profilesToJson [⟨"dev", "file://./state"⟩])) =
      ⟨Except.ok (), save_pulumi_profiles [⟨"dev", "s3://new"⟩], 1⟩ :=
  ((edit_profile_spec (profilesToJson [⟨"dev", "file://./state"⟩])
      [⟨"dev", "file://./state"⟩] "dev" "s3://new" rfl).2 rfl).1

/-- Witness for C4: the spec scenario deleting `dev` from a two-entry store. -/
theorem delete_profile_spec_witness :
    delete_profile "dev"
        (some (profilesToJson [⟨"dev", "file://./state"⟩, ⟨"prod", "s3://bucket"⟩])) =
      ⟨Except.ok (), save_pulumi_profiles [⟨"prod", "s3://bucket"⟩], 1⟩ :=
  ((delete_profile_spec
      (profilesToJson [⟨"dev", "file://./state"⟩, ⟨"prod", "s3://bucket"⟩])
      [⟨"dev", "file://./state"⟩, ⟨"prod", "s3://bucket"⟩] "dev" rfl
      (by decide)).2 rfl).1

/-- Witness for C6: after a concrete add, the stored names are still unique. -/
theorem mutations_preserve_uniqueness_witness :
    (([⟨"dev", "file://./state"⟩, ⟨"prod", "s3://bucket"⟩] : List Profile).map
      Profile.name).Nodup :=
  (mutations_preserve_uniqueness (profilesToJson [⟨"dev", "file://./state"⟩])
      [⟨"dev", "file://./state"⟩] rfl (by decide)).1 "prod" "s3://bucket"
      [⟨"dev", "file://./state"⟩, ⟨"prod", "s3://bucket"⟩] rfl

/-- Witness for C9 (amended): an unresolvable home directory is reported. -/
theorem main_error_policy_witness :
    mainRun ⟨none, false, none, false, false, none, none, false⟩
      ⟨false, none, Except.ok ("", ""), Except.ok "", Except.ok none⟩
      ⟨none, none⟩ = Except.error StoreError.noHomeDirectoryError :=
  main_error_policy.1 ⟨none, false, none, false, false, none, none, false⟩
    ⟨false, none, Except.ok ("", ""), Except.ok "", Except.ok none⟩ ⟨none, none⟩ rfl

end PulumiSel
